import Mathlib

/-!
Formal model of the Usabilla API client request-signing engine
(source: src/index.js of the api-js-node repository).

The JavaScript source is shallowly embedded: the stateful
SignatureFactory object becomes a record FactoryState threaded
explicitly through the methods, JavaScript strings become Lean strings
(valid Unicode; JS strings are UTF-16 code-unit sequences and the
default Array.sort comparator is modelled accordingly), the Node crypto
primitives become fields of a Crypto record since only their plumbing
is at stake, and the moment() clock/formatting library is modelled by
explicit clock-read instants (epoch seconds) together with an
environment carrying the UTC offset and the locale name tables that
the format tokens of moment consult.
-/

namespace ApiJsNode

/-! ## Bytes, UTF-8, hex -/

/-- Byte strings (Node Buffer values) as lists of naturals below 256. -/
abbrev Bytes := List Nat

/-- Standard UTF-8 encoding of one code point. -/
def utf8EncodeCharNat (n : Nat) : List Nat :=
  if n < 0x80 then [n]
  else if n < 0x800 then [0xC0 + n / 0x40, 0x80 + n % 0x40]
  else if n < 0x10000 then
    [0xE0 + n / 0x1000, 0x80 + n / 0x40 % 0x40, 0x80 + n % 0x40]
  else
    [0xF0 + n / 0x40000, 0x80 + n / 0x1000 % 0x40, 0x80 + n / 0x40 % 0x40,
      0x80 + n % 0x40]

/-- UTF-8 bytes of a string, as produced by Node for the utf8 encoding. -/
def utf8Bytes (s : String) : Bytes :=
  s.data.flatMap (fun c => utf8EncodeCharNat c.toNat)

/-- Lowercase hexadecimal digit for a value below 16. -/
def hexChar (n : Nat) : Char :=
  if n < 10 then Char.ofNat (48 + n) else Char.ofNat (87 + n)

/-- Lowercase hexadecimal rendering of a byte string, as produced by
Node digest with the hex encoding. -/
def toHex (b : Bytes) : String :=
  String.mk (b.flatMap (fun x => [hexChar (x / 16 % 16), hexChar (x % 16)]))

/-! ## JavaScript string helpers -/

/-- Array.prototype.join with a separator (no element is undefined once
the conversions below are applied). -/
def joinSep (sep : String) : List String → String
  | [] => ""
  | [x] => x
  | x :: y :: rest => x ++ sep ++ joinSep sep (y :: rest)

/-- Conversion Array.join applies to a possibly-undefined element:
undefined becomes the empty string. -/
def jsUndefToEmpty (o : Option String) : String := o.getD ""

/-- Conversion template literals and string concatenation apply to a
possibly-undefined value: undefined becomes the text undefined. -/
def jsUndefToText (o : Option String) : String := o.getD "undefined"

/-- JavaScript logical-or defaulting for strings: undefined and the
empty string are falsy and select the default. -/
def jsOrDefault (o : Option String) (d : String) : String :=
  match o with
  | none => d
  | some s => if s = "" then d else s

/-! ## UTF-16 code units and the default sort order -/

/-- UTF-16 code units of one code point (surrogate pair above 0xFFFF). -/
def charUtf16 (c : Char) : List Nat :=
  if c.toNat < 0x10000 then [c.toNat]
  else [0xD800 + (c.toNat - 0x10000) / 0x400, 0xDC00 + (c.toNat - 0x10000) % 0x400]

/-- UTF-16 code units of a string: the representation JavaScript string
comparison operates on. -/
def utf16Units (s : String) : List Nat :=
  s.data.flatMap charUtf16

/-- Lexicographic less-or-equal on lists of naturals. -/
def lexLeNat : List Nat → List Nat → Bool
  | [], _ => true
  | _ :: _, [] => false
  | a :: as, b :: bs => if a < b then true else if b < a then false else lexLeNat as bs

/-- String order used by the default Array.prototype.sort comparator:
lexicographic on UTF-16 code units. -/
def jsLe (a b : String) : Prop := lexLeNat (utf16Units a) (utf16Units b) = true

instance : DecidableRel jsLe := fun a b => inferInstanceAs (Decidable (_ = true))

/-- Byte-wise (UTF-8) lexicographic order, the order the specification
text names for query keys. -/
def byteLe (a b : String) : Prop := lexLeNat (utf8Bytes a) (utf8Bytes b) = true

instance : DecidableRel byteLe := fun a b => inferInstanceAs (Decidable (_ = true))

/-! ## String.prototype.replace with a string pattern -/

/-- Splits a character list at the first occurrence of a pattern,
returning the part before and the part after the match. -/
def splitFirst (pat : List Char) : List Char → Option (List Char × List Char)
  | [] => if pat.isEmpty then some ([], []) else none
  | c :: rest =>
    if pat.isPrefixOf (c :: rest) then some ([], (c :: rest).drop pat.length)
    else
      match splitFirst pat rest with
      | none => none
      | some (b, a) => some (c :: b, a)

/-- Replacement-text expansion of String.prototype.replace (ECMAScript
GetSubstitution restricted to a string pattern, which has no capture
groups): dollar-dollar, dollar-ampersand, dollar-backquote and
dollar-quote are special, everything else is literal. -/
def getSubstitution (matched before after : String) : List Char → String
  | [] => ""
  | [c] => String.singleton c
  | c :: d :: rest =>
    if c = '$' then
      if d = '$' then "$" ++ getSubstitution matched before after rest
      else if d = '&' then matched ++ getSubstitution matched before after rest
      else if d = Char.ofNat 96 then before ++ getSubstitution matched before after rest
      else if d = Char.ofNat 39 then after ++ getSubstitution matched before after rest
      else String.singleton c ++ getSubstitution matched before after (d :: rest)
    else String.singleton c ++ getSubstitution matched before after (d :: rest)

/-- String.prototype.replace with a string pattern: replaces the first
occurrence only, expanding dollar patterns in the replacement. -/
def jsReplace (s pat rep : String) : String :=
  match splitFirst pat.data s.data with
  | none => s
  | some (b, a) =>
    String.mk b ++ getSubstitution pat (String.mk b) (String.mk a) rep.data ++ String.mk a

/-- Modelled from the specification words for path resolution: replace
the first occurrence of the placeholder by the replacement text taken
verbatim. -/
def specReplaceVerbatim (s pat rep : String) : String :=
  match splitFirst pat.data s.data with
  | none => s
  | some (b, a) => String.mk b ++ rep ++ String.mk a

/-- True when a string contains no dollar character, so that replace
inserts it verbatim. -/
def noDollar (s : String) : Prop := s.data.all (fun c => c ≠ '$') = true

instance : DecidablePred noDollar := fun s => inferInstanceAs (Decidable (_ = true))

/-! ## Clock and date formatting (the moment library)

The source formats dates with moment(), which reads the system clock
and renders the local wall-clock time using the globally configured
locale.  A moment() call is modelled as an explicit instant (epoch
seconds, Int) and the rendering environment carries the UTC offset in
minutes and the locale name tables consulted by the ddd and MMM format
tokens. -/

/-- Name tables a moment locale supplies to the ddd and MMM tokens. -/
structure Locale where
  weekdayNames : List String
  monthNames : List String
deriving DecidableEq, Repr

/-- The default English locale of moment. -/
def enLocale : Locale :=
  { weekdayNames := ["Sun", "Mon", "Tue", "Wed", "Thu", "Fri", "Sat"],
    monthNames := ["Jan", "Feb", "Mar", "Apr", "May", "Jun", "Jul", "Aug",
      "Sep", "Oct", "Nov", "Dec"] }

/-- Rendering environment of moment: local-time UTC offset in minutes
and the active locale. -/
structure Env where
  utcOffsetMinutes : Int
  locale : Locale
deriving DecidableEq, Repr

/-- Civil calendar date (year, month, day) of a day count relative to
1970-01-01 (Gregorian, proleptic). -/
def civilFromDays (z0 : Int) : Int × Nat × Nat :=
  let z : Int := z0 + 719468
  let era : Int := (if 0 ≤ z then z else z - 146096) / 146097
  let doe : Nat := (z - era * 146097).toNat
  let yoe : Nat := (doe - doe / 1460 + doe / 36524 - doe / 146096) / 365
  let y : Int := (yoe : Int) + era * 400
  let doy : Nat := doe - (365 * yoe + yoe / 4 - yoe / 100)
  let mp : Nat := (5 * doy + 2) / 153
  let d : Nat := doy - (153 * mp + 2) / 5 + 1
  let m : Nat := if mp < 10 then mp + 3 else mp - 9
  (if m ≤ 2 then y + 1 else y, m, d)

/-- Two-digit zero padding (moment tokens DD, HH, mm, ss). -/
def pad2 (n : Nat) : String := if n < 10 then "0" ++ Nat.repr n else Nat.repr n

/-- Four-digit zero padding (moment token YYYY on the years in scope). -/
def pad4 (n : Nat) : String :=
  if n < 10 then "000" ++ Nat.repr n
  else if n < 100 then "00" ++ Nat.repr n
  else if n < 1000 then "0" ++ Nat.repr n
  else Nat.repr n

/-- Local civil fields of an instant under an offset: date, time of day
and weekday index (0 = Sunday). -/
def localFields (off t : Int) : (Int × Nat × Nat) × (Nat × Nat × Nat) × Nat :=
  let loc : Int := t + off * 60
  let days : Int := loc.ediv 86400
  let sod : Nat := (loc.emod 86400).toNat
  (civilFromDays days, (sod / 3600, sod / 60 % 60, sod % 60), ((days + 4).emod 7).toNat)

/-- Rendering of the moment format ddd, DD MMM YYYY HH:mm:ss (local
time, locale name tables). -/
def formatUsbl (L : Locale) (off t : Int) : String :=
  let f := localFields off t
  let y := f.1.1
  let m := f.1.2.1
  let d := f.1.2.2
  let hh := f.2.1.1
  let mi := f.2.1.2.1
  let ss := f.2.1.2.2
  let w := f.2.2
  L.weekdayNames.getD w "" ++ ", " ++ pad2 d ++ " " ++ L.monthNames.getD (m - 1) ""
    ++ " " ++ pad4 y.toNat ++ " " ++ pad2 hh ++ ":" ++ pad2 mi ++ ":" ++ pad2 ss

/-- Rendering of the moment format YYYYMMDD (local time). -/
def formatShort (off t : Int) : String :=
  let f := localFields off t
  pad4 f.1.1.toNat ++ pad2 f.1.2.1 ++ pad2 f.1.2.2

/-- Rendering of the moment format YYYYMMDDTHHmmss (local time). -/
def formatLong (off t : Int) : String :=
  let f := localFields off t
  pad4 f.1.1.toNat ++ pad2 f.1.2.1 ++ pad2 f.1.2.2 ++ "T" ++ pad2 f.2.1.1
    ++ pad2 f.2.1.2.1 ++ pad2 f.2.1.2.2

/-- The three date representations built by SignatureFactory.getDateTime. -/
structure Dates where
  usbldate : String
  shortdate : String
  longdate : String
deriving DecidableEq, Repr

/-- SignatureFactory.getDateTime.  The source calls moment() once per
field, so the three fields are formatted from three separate clock
reads t1, t2, t3 (in source order: usbldate, shortdate, longdate); the
GMT and Z suffixes are appended as string literals. -/
def getDateTime (env : Env) (t1 t2 t3 : Int) : Dates :=
  { usbldate := formatUsbl env.locale env.utcOffsetMinutes t1 ++ " GMT",
    shortdate := formatShort env.utcOffsetMinutes t2,
    longdate := formatLong env.utcOffsetMinutes t3 ++ "Z" }

/-! ## Crypto primitives

Only the plumbing around the hash and HMAC primitives is under
verification, so SHA-256 and HMAC-SHA256 are fields of a record: every
theorem about the signing chain holds for an arbitrary interpretation
of the primitives, which is exactly the claim that the code feeds them
the right inputs in the right order. -/

/-- Node crypto primitives used by the source: createHash sha256 and
createHmac sha256, each from key/message bytes to digest bytes. -/
structure Crypto where
  sha256 : Bytes → Bytes
  hmacSha256 : Bytes → Bytes → Bytes

/-! ## SignatureFactory -/

/-- Header object built field-by-field by sign(); either field may not
have been assigned yet. -/
structure HeadersObj where
  date : Option String := none
  Authorization : Option String := none
deriving DecidableEq, Repr

/-- Headers of a completed SignedRequest. -/
structure SignedHeaders where
  date : String
  Authorization : String
deriving DecidableEq, Repr

/-- Return value of sign(): the headers object and the final url (the
url field is whatever this.url holds, possibly undefined). -/
structure Response where
  headers : SignedHeaders
  url : Option String
deriving DecidableEq, Repr

/-- The SignatureFactory object: the three constructor-time constants
followed by the fields the methods assign later (undefined until then). -/
structure FactoryState where
  accessKey : String
  secretKey : String
  host : String
  url : Option String := none
  method : Option String := none
  queryParameters : Option String := none
  dates : Option Dates := none
  headers : Option HeadersObj := none
deriving DecidableEq, Repr

/-- SignatureFactory constructor. -/
def mkFactory (accessKey secretKey host : String) : FactoryState :=
  { accessKey := accessKey, secretKey := secretKey, host := host }

/-- SignatureFactory.setUrl. -/
def setUrl (s : FactoryState) (url : String) : FactoryState :=
  { s with url := some url }

/-- SignatureFactory.setMethod. -/
def setMethod (s : FactoryState) (method : String) : FactoryState :=
  { s with method := some method }

/-- Date line of SignatureFactory.getCanonicalHeaders.  The source
reads this.dates, which sign() has always assigned before this method
runs, so the dates value is passed explicitly. -/
def canonicalHeaderDate (dates : Dates) : String := "date:" ++ dates.usbldate

/-- Host line of SignatureFactory.getCanonicalHeaders, with the newline
baked into the value by the source. -/
def canonicalHeaderHost (s : FactoryState) : String := "host:" ++ s.host ++ "\n"

/-- SignatureFactory.hash with the hex encoding: lowercase hex SHA-256
of the UTF-8 bytes of a string. -/
def hashHex (C : Crypto) (s : String) : String := toHex (C.sha256 (utf8Bytes s))

/-- SignatureFactory.hmac with no output encoding: raw digest bytes. -/
def hmacRaw (C : Crypto) (key : Bytes) (s : String) : Bytes :=
  C.hmacSha256 key (utf8Bytes s)

/-- SignatureFactory.hmac with the hex encoding. -/
def hmacHex (C : Crypto) (key : Bytes) (s : String) : String :=
  toHex (C.hmacSha256 key (utf8Bytes s))

/-- SignatureFactory.canonicalString: the seven lines joined by
newline.  this.url and this.queryParameters may be undefined, which
Array.join renders as empty. -/
def canonicalString (C : Crypto) (s : FactoryState) (dates : Dates) : String :=
  joinSep "\n"
    [jsOrDefault s.method "GET",
      jsUndefToEmpty s.url,
      jsUndefToEmpty s.queryParameters,
      canonicalHeaderDate dates,
      canonicalHeaderHost s,
      "date;host",
      hashHex C ""]

/-- SignatureFactory.stringToSign. -/
def stringToSign (C : Crypto) (s : FactoryState) (dates : Dates) : String :=
  joinSep "\n"
    ["USBL1-HMAC-SHA256",
      dates.longdate,
      dates.shortdate ++ "/" ++ "usbl1_request",
      hashHex C (canonicalString C s dates)]

/-- SignatureFactory.getSignature: the two-step key derivation followed
by the hex-encoded final HMAC. -/
def getSignature (C : Crypto) (s : FactoryState) (dates : Dates) : String :=
  let kDate := hmacRaw C (utf8Bytes ("USBL1" ++ s.secretKey)) dates.shortdate
  let kSigning := hmacRaw C kDate "usbl1_request"
  hmacHex C kSigning (stringToSign C s dates)

/-- SignatureFactory.authHeader: three pieces joined by comma-space. -/
def authHeader (C : Crypto) (s : FactoryState) (dates : Dates) : String :=
  joinSep ", "
    ["USBL1-HMAC-SHA256 Credential=" ++ s.accessKey ++ "/" ++ dates.shortdate
        ++ "/" ++ "usbl1_request",
      "SignedHeaders=" ++ "date;host",
      "Signature=" ++ getSignature C s dates]

/-- Caller-supplied query descriptor: optional id and optional params
object.  A JavaScript object literal is modelled as an association list
(own enumerable string keys are distinct in the source usage). -/
structure Query where
  id : Option String := none
  params : Option (List (String × String)) := none

/-- SignatureFactory.handleQuery.  When a non-empty id is supplied the
first :id in this.url is replaced (a wildcard id is first rewritten to
percent-encoded form); when a params object is supplied (even an empty
one) this.queryParameters is rebuilt from the sorted keys, otherwise it
is left holding whatever an earlier call stored.  The source always
runs setUrl before this method, so this.url is defined at the replace. -/
def handleQuery (q : Query) (s : FactoryState) : FactoryState :=
  let s1 :=
    match q.id with
    | none => s
    | some i =>
      if i = "" then s
      else
        let i2 := if i = "*" then "%2A" else i
        { s with url := s.url.map (fun u => jsReplace u ":id" i2) }
  match q.params with
  | none => s1
  | some ps =>
    let keys := (ps.map Prod.fst).insertionSort jsLe
    let acc := keys.foldl
      (fun acc k => acc ++ (k ++ "=" ++ jsUndefToText (ps.lookup k) ++ "&")) ""
    { s1 with queryParameters := some (String.mk acc.data.dropLast) }

/-- SignatureFactory.sign.  The source assigns this.dates from
getDateTime (three clock reads t1 t2 t3), builds this.headers field by
field, and returns the response; the query suffix is appended to the
url only when this.queryParameters is truthy (defined and non-empty). -/
def sign (C : Crypto) (env : Env) (t1 t2 t3 : Int) (s : FactoryState) :
    Response × FactoryState :=
  let dates := getDateTime env t1 t2 t3
  let auth := authHeader C s dates
  let hObj : HeadersObj := { date := some dates.usbldate, Authorization := some auth }
  let s1 := { s with dates := some dates, headers := some hObj }
  let url1 : Option String :=
    match s.queryParameters with
    | none => s.url
    | some q => if q = "" then s.url else some (jsUndefToText s.url ++ "?" ++ q)
  ({ headers := { date := dates.usbldate, Authorization := auth }, url := url1 }, s1)

/-- Signing steps of Resource.get: setUrl with the resource url, then
handleQuery with the caller query, then sign, on the shared factory. -/
def resourceGetSign (C : Crypto) (env : Env) (t1 t2 t3 : Int) (url : String)
    (q : Query) (s : FactoryState) : Response × FactoryState :=
  sign C env t1 t2 t3 (handleQuery q (setUrl s url))

/-! ## Fallible crypto and exception propagation in sign()

To settle the error-handling claim the crypto primitives are allowed
to fail (Node throws synchronously, modelled with Except), and sign()
is re-traced with the mutations it performs before the failing
primitive: the source assigns this.dates, creates this.headers and
assigns its date field before authHeader() runs any primitive, so a
throw leaves those assignments behind. -/

/-- Crypto primitives that may fail (a thrown Node error). -/
structure FCrypto where
  sha256E : Bytes → Except String Bytes
  hmacSha256E : Bytes → Bytes → Except String Bytes

/-- Fallible SignatureFactory.hash with the hex encoding. -/
def hashHexE (F : FCrypto) (s : String) : Except String String :=
  (F.sha256E (utf8Bytes s)).map toHex

/-- Fallible SignatureFactory.canonicalString. -/
def canonicalStringE (F : FCrypto) (s : FactoryState) (dates : Dates) :
    Except String String := do
  let bodyHash ← hashHexE F ""
  pure (joinSep "\n"
    [jsOrDefault s.method "GET",
      jsUndefToEmpty s.url,
      jsUndefToEmpty s.queryParameters,
      canonicalHeaderDate dates,
      canonicalHeaderHost s,
      "date;host",
      bodyHash])

/-- Fallible SignatureFactory.stringToSign. -/
def stringToSignE (F : FCrypto) (s : FactoryState) (dates : Dates) :
    Except String String := do
  let canon ← canonicalStringE F s dates
  let canonHash ← hashHexE F canon
  pure (joinSep "\n"
    ["USBL1-HMAC-SHA256",
      dates.longdate,
      dates.shortdate ++ "/" ++ "usbl1_request",
      canonHash])

/-- Fallible SignatureFactory.getSignature. -/
def getSignatureE (F : FCrypto) (s : FactoryState) (dates : Dates) :
    Except String String := do
  let kDate ← F.hmacSha256E (utf8Bytes ("USBL1" ++ s.secretKey)) (utf8Bytes dates.shortdate)
  let kSigning ← F.hmacSha256E kDate (utf8Bytes "usbl1_request")
  let sts ← stringToSignE F s dates
  let sigBytes ← F.hmacSha256E kSigning (utf8Bytes sts)
  pure (toHex sigBytes)

/-- Fallible SignatureFactory.authHeader. -/
def authHeaderE (F : FCrypto) (s : FactoryState) (dates : Dates) :
    Except String String := do
  let sig ← getSignatureE F s dates
  pure (joinSep ", "
    ["USBL1-HMAC-SHA256 Credential=" ++ s.accessKey ++ "/" ++ dates.shortdate
        ++ "/" ++ "usbl1_request",
      "SignedHeaders=" ++ "date;host",
      "Signature=" ++ sig])

/-- Fallible SignatureFactory.sign: the assignments to this.dates and
this.headers.date happen before the first primitive can throw inside
authHeader(), so they survive a failure; Authorization and the return
value do not. -/
def signE (F : FCrypto) (env : Env) (t1 t2 t3 : Int) (s : FactoryState) :
    Except String Response × FactoryState :=
  let dates := getDateTime env t1 t2 t3
  let sHdr := { s with dates := some dates,
                       headers := some { date := some dates.usbldate, Authorization := none } }
  match authHeaderE F s dates with
  | .error e => (.error e, sHdr)
  | .ok auth =>
    let final := { sHdr with
      headers := some { date := some dates.usbldate, Authorization := some auth } }
    let url1 : Option String :=
      match s.queryParameters with
      | none => s.url
      | some q => if q = "" then s.url else some (jsUndefToText s.url ++ "?" ++ q)
    (.ok { headers := { date := dates.usbldate, Authorization := auth }, url := url1 }, final)

/-! ## The Usabilla client object and the resource tree -/

/-- The config object of the Usabilla class. -/
structure UConfig where
  method : String
  host : String
  protocol : String
deriving DecidableEq, Repr

/-- Options accepted by Usabilla.configure; absent keys are left as is
by lodash.assign. -/
structure UOptions where
  method : Option String := none
  host : Option String := none
  protocol : Option String := none

/-- lodash.assign of an options object onto the config object. -/
def assignConfig (c : UConfig) (o : UOptions) : UConfig :=
  { method := o.method.getD c.method,
    host := o.host.getD c.host,
    protocol := o.protocol.getD c.protocol }

/-- The per-resource config object each Resource constructor creates. -/
structure RConfig where
  protocol : String
  host : String
deriving DecidableEq, Repr

/-- A Resource: its own config object and its url template. -/
structure ResourceObj where
  config : RConfig
  url : String
deriving DecidableEq, Repr

/-- Resource constructor: hardcodes its own protocol and host. -/
def mkResource (url : String) : ResourceObj :=
  { config := { protocol := "https", host := "data.usabilla.com" }, url := url }

/-- Resource.getBaseUrl. -/
def getBaseUrl (r : ResourceObj) : String :=
  r.config.protocol ++ "://" ++ r.config.host

/-- The websites product subtree: the five concrete resources the
constructor chain builds from the base path. -/
structure WebsitesProductObj where
  buttons : ResourceObj
  buttonsFeedback : ResourceObj
  campaigns : ResourceObj
  campaignsResults : ResourceObj
  campaignsStats : ResourceObj
deriving DecidableEq, Repr

/-- WebsitesProduct constructor: url templates exactly as the nested
Resource constructors concatenate them. -/
def mkWebsitesProduct (base : String) : WebsitesProductObj :=
  let baseUrl := base ++ "/websites"
  let buttonsBase := baseUrl ++ "/button"
  let campaignsBase := baseUrl ++ "/campaign"
  { buttons := mkResource buttonsBase,
    buttonsFeedback := mkResource (buttonsBase ++ "/:id/feedback"),
    campaigns := mkResource campaignsBase,
    campaignsResults := mkResource (campaignsBase ++ "/:id/results"),
    campaignsStats := mkResource (campaignsBase ++ "/:id/stats") }

/-- The Usabilla client object: its config, the shared
SignatureFactory, and the resource tree. -/
structure UsabillaObj where
  config : UConfig
  factory : FactoryState
  websites : WebsitesProductObj
deriving DecidableEq, Repr

/-- Usabilla constructor: the factory host is read from the freshly
built config once, at construction time. -/
def mkUsabilla (accessKey secretKey : String) : UsabillaObj :=
  let config : UConfig := { method := "GET", host := "data.usabilla.com", protocol := "https" }
  { config := config,
    factory := mkFactory accessKey secretKey config.host,
    websites := mkWebsitesProduct "/live" }

/-- Usabilla.configure: lodash.assign onto this.config. -/
def configure (u : UsabillaObj) (o : UOptions) : UsabillaObj :=
  { u with config := assignConfig u.config o }

/-! ## Specification-side definitions

These are written from the words of the specification and of the
claims, to be compared against the definitions traced from the source
above. -/

/-- Canonical string as the specification words it: newline-join of
method, resolved path, query string, date line, host line carrying its
own trailing newline (hence a blank line), the signed-headers list and
the body hash. -/
def specCanonicalString (method path queryStr dateValue host bodyHashHex : String) : String :=
  method ++ "\n" ++ path ++ "\n" ++ queryStr ++ "\n" ++ ("date:" ++ dateValue)
    ++ "\n" ++ ("host:" ++ host ++ "\n") ++ "\n" ++ "date;host" ++ "\n" ++ bodyHashHex

/-- String-to-sign as the specification words it. -/
def specStringToSign (longdate shortdate canonHashHex : String) : String :=
  "USBL1-HMAC-SHA256" ++ "\n" ++ longdate ++ "\n" ++ (shortdate ++ "/usbl1_request")
    ++ "\n" ++ canonHashHex

/-- Reference signature derivation as the claim words it: the HMAC
chain over the string-to-sign, emitted as lowercase hex. -/
def specSignature (C : Crypto) (secretKey shortdate longdate canonical : String) : String :=
  let kDate := C.hmacSha256 (utf8Bytes ("USBL1" ++ secretKey)) (utf8Bytes shortdate)
  let kSigning := C.hmacSha256 kDate (utf8Bytes "usbl1_request")
  toHex (C.hmacSha256 kSigning
    (utf8Bytes (specStringToSign longdate shortdate (toHex (C.sha256 (utf8Bytes canonical))))))

/-- Authorization header as the claim words it, one literal template. -/
def specAuthHeader (accessKey shortdate signatureHex : String) : String :=
  "USBL1-HMAC-SHA256 Credential=" ++ accessKey ++ "/" ++ shortdate
    ++ "/usbl1_request, SignedHeaders=date;host, Signature=" ++ signatureHex

/-- Join key=value pieces with ampersands, no trailing separator. -/
def joinAmp : List String → String
  | [] => ""
  | [x] => x
  | x :: y :: rest => x ++ "&" ++ joinAmp (y :: rest)

/-- One key=value piece, value taken verbatim from the mapping. -/
def specQueryPair (ps : List (String × String)) (k : String) : String :=
  k ++ "=" ++ (ps.lookup k).getD ""

/-- Query string as the claim words it: keys in byte-wise ascending
order, key=value pairs joined with ampersand. -/
def specBuildQueryStringBytes (ps : List (String × String)) : String :=
  joinAmp (((ps.map Prod.fst).insertionSort byteLe).map (specQueryPair ps))

/-- Query string with keys in UTF-16 code-unit ascending order, the
order the default JavaScript sort actually uses. -/
def specBuildQueryStringUtf16 (ps : List (String × String)) : String :=
  joinAmp (((ps.map Prod.fst).insertionSort jsLe).map (specQueryPair ps))

/-- Proof-internal form of the accumulated key=value concatenation with
a trailing separator after every piece. -/
def concatAmp (g : String → String) : List String → String
  | [] => ""
  | k :: rest => (g k ++ "&") ++ concatAmp g rest

/-! ## Concrete fixtures -/

/-- Trivial interpretation of the crypto primitives, enough to evaluate
the plumbing on concrete inputs. -/
def zeroCrypto : Crypto := { sha256 := fun _ => [], hmacSha256 := fun _ _ => [] }

/-- Fallible primitives whose HMAC always throws. -/
def failCrypto : FCrypto :=
  { sha256E := fun b => .ok b, hmacSha256E := fun _ _ => .error "digest failure" }

/-- Environment of a process running in UTC with the default locale. -/
def utcEnv : Env := { utcOffsetMinutes := 0, locale := enLocale }

/-- Environment of a process running one hour east of UTC. -/
def plus60Env : Env := { utcOffsetMinutes := 60, locale := enLocale }

/-- The name tables of the moment French locale. -/
def frLocale : Locale :=
  { weekdayNames := ["dim.", "lun.", "mar.", "mer.", "jeu.", "ven.", "sam."],
    monthNames := ["janv.", "févr.", "mars", "avr.", "mai", "juin", "juil.",
      "août", "sept.", "oct.", "nov.", "déc."] }

/-- Instant 2016-12-31T23:59:59Z. -/
def tDec31 : Int := 1483228799

/-- Instant 2017-01-01T00:00:00Z, one second later. -/
def tJan1 : Int := 1483228800

/-- Instant 2017-01-02T15:04:05Z. -/
def tJan2 : Int := 1483369445

/-- Url template of the buttons resource. -/
def buttonUrl : String := "/live/websites/button"

/-- A freshly constructed factory. -/
def baseFactory : FactoryState := mkFactory "AK" "SK" "data.usabilla.com"

/-- A one-character key above the Basic Multilingual Plane. -/
def astralKey : String := String.mk [Char.ofNat 0x10000]

/-- The largest one-character Basic Multilingual Plane key. -/
def bmpMaxKey : String := String.mk [Char.ofNat 0xFFFF]

end ApiJsNode


namespace ApiJsNode

theorem getSubstitution_noDollar (m b a : String) :
    ∀ l : List Char, l.all (fun c => c ≠ '$') = true →
      getSubstitution m b a l = String.mk l
  | [], _ => rfl
  | [c], h => rfl
  | c :: d :: rest, h => by
    simp only [List.all_cons, Bool.and_eq_true, decide_eq_true_eq] at h
    have hc : c ≠ '$' := h.1
    have ih := getSubstitution_noDollar m b a (d :: rest) (by
      simp only [List.all_cons, Bool.and_eq_true, decide_eq_true_eq]
      exact h.2)
    simp only [getSubstitution, if_neg hc, ih]
    apply String.ext
    simp [String.data_append, String.singleton]

theorem jsReplace_noDollar (s pat rep : String) (h : noDollar rep) :
    jsReplace s pat rep = specReplaceVerbatim s pat rep := by
  unfold jsReplace specReplaceVerbatim
  cases hs : splitFirst pat.data s.data with
  | none => rfl
  | some ba =>
    obtain ⟨b, a⟩ := ba
    simp only
    rw [getSubstitution_noDollar _ _ _ _ h]

end ApiJsNode

namespace ApiJsNode

theorem lexLeNat_total : ∀ u v : List Nat, lexLeNat u v = true ∨ lexLeNat v u = true
  | [], _ => Or.inl rfl
  | _ :: _, [] => Or.inr rfl
  | a :: as, b :: bs => by
    simp only [lexLeNat]
    rcases Nat.lt_trichotomy a b with h | h | h
    · left; simp [h]
    · subst h
      simp only [lt_irrefl, if_false]
      exact lexLeNat_total as bs
    · right; simp [h]

theorem lexLeNat_trans : ∀ u v w : List Nat,
    lexLeNat u v = true → lexLeNat v w = true → lexLeNat u w = true
  | [], _, _, _, _ => rfl
  | a :: as, [], _, h, _ => by simp [lexLeNat] at h
  | a :: as, b :: bs, [], _, h => by simp [lexLeNat] at h
  | a :: as, b :: bs, c :: cs, h1, h2 => by
    simp only [lexLeNat] at h1 h2 ⊢
    by_cases hab : a < b
    · by_cases hbc : b < c
      · rw [if_pos (by omega)]
      · by_cases hcb : c < b
        · rw [if_neg hbc, if_pos hcb] at h2
          exact absurd h2 (by simp)
        · have hbc2 : b = c := by omega
          subst hbc2
          rw [if_pos (by omega : a < b)]
    · by_cases hba : b < a
      · rw [if_neg hab, if_pos hba] at h1
        exact absurd h1 (by simp)
      · have hab2 : a = b := by omega
        subst hab2
        rw [if_neg hab, if_neg hba] at h1
        by_cases hac : a < c
        · rw [if_pos hac]
        · by_cases hca : c < a
          · rw [if_pos hca, if_neg hac] at h2
            exact absurd h2 (by simp)
          · rw [if_neg hac, if_neg hca] at h2 ⊢
            exact lexLeNat_trans as bs cs h1 h2

theorem lexLeNat_antisymm : ∀ u v : List Nat,
    lexLeNat u v = true → lexLeNat v u = true → u = v
  | [], [], _, _ => rfl
  | [], _ :: _, _, h => by simp [lexLeNat] at h
  | _ :: _, [], h, _ => by simp [lexLeNat] at h
  | a :: as, b :: bs, h1, h2 => by
    simp only [lexLeNat] at h1 h2
    by_cases hab : a < b
    · rw [if_neg (by omega : ¬ b < a), if_pos hab] at h2
      exact absurd h2 (by simp)
    · by_cases hba : b < a
      · rw [if_neg hab, if_pos hba] at h1
        exact absurd h1 (by simp)
      · have hab2 : a = b := by omega
        subst hab2
        rw [if_neg hab, if_neg hba] at h1 h2
        rw [lexLeNat_antisymm as bs h1 h2]

theorem charUtf16_ne_nil (c : Char) : charUtf16 c ≠ [] := by
  unfold charUtf16
  split <;> simp

theorem char_valid_nat (c : Char) :
    c.toNat < 55296 ∨ (57343 < c.toNat ∧ c.toNat < 1114112) := c.valid

theorem char_toNat_inj {c d : Char} (h : c.toNat = d.toNat) : c = d :=
  Char.ext (UInt32.ext h)

theorem surrogate_div_lt (n : Nat) (h : n < 1114112) : (n - 65536) / 1024 < 1024 := by
  omega

theorem flatMap_charUtf16_inj : ∀ l1 l2 : List Char,
    l1.flatMap charUtf16 = l2.flatMap charUtf16 → l1 = l2
  | [], [], _ => rfl
  | [], c :: cs, h => by
    rw [List.flatMap_nil, List.flatMap_cons] at h
    exact absurd h.symm (by simp [charUtf16_ne_nil c])
  | c :: cs, [], h => by
    rw [List.flatMap_nil, List.flatMap_cons] at h
    exact absurd h (by simp [charUtf16_ne_nil c])
  | c :: cs, d :: ds, h => by
    rw [List.flatMap_cons, List.flatMap_cons] at h
    have hvc := char_valid_nat c
    have hvd := char_valid_nat d
    by_cases hc : c.toNat < 65536 <;> by_cases hd : d.toNat < 65536
    · rw [charUtf16, if_pos hc, charUtf16, if_pos hd] at h
      simp only [List.cons_append, List.nil_append, List.cons.injEq] at h
      have hcd : c = d := char_toNat_inj h.1
      subst hcd
      rw [flatMap_charUtf16_inj cs ds h.2]
    · rw [charUtf16, if_pos hc, charUtf16, if_neg hd] at h
      simp only [List.cons_append, List.nil_append, List.cons.injEq] at h
      have hq := surrogate_div_lt d.toNat (by omega)
      omega
    · rw [charUtf16, if_neg hc, charUtf16, if_pos hd] at h
      simp only [List.cons_append, List.nil_append, List.cons.injEq] at h
      have hq := surrogate_div_lt c.toNat (by omega)
      omega
    · rw [charUtf16, if_neg hc, charUtf16, if_neg hd] at h
      simp only [List.cons_append, List.nil_append, List.cons.injEq] at h
      obtain ⟨h1, h2, h3⟩ := h
      have hdc := Nat.div_add_mod (c.toNat - 65536) 1024
      have hdd := Nat.div_add_mod (d.toNat - 65536) 1024
      have hcd : c = d := char_toNat_inj (by omega)
      subst hcd
      rw [flatMap_charUtf16_inj cs ds h3]

theorem utf16Units_inj {a b : String} (h : utf16Units a = utf16Units b) : a = b :=
  String.ext (flatMap_charUtf16_inj a.data b.data h)

instance : IsTotal String jsLe := ⟨fun a b => lexLeNat_total (utf16Units a) (utf16Units b)⟩

instance : IsTrans String jsLe :=
  ⟨fun a b c h1 h2 => lexLeNat_trans (utf16Units a) (utf16Units b) (utf16Units c) h1 h2⟩

instance : IsAntisymm String jsLe :=
  ⟨fun a b h1 h2 => utf16Units_inj (lexLeNat_antisymm (utf16Units a) (utf16Units b) h1 h2)⟩

theorem lookup_isSome_of_mem {k : String} : ∀ {ps : List (String × String)},
    k ∈ ps.map Prod.fst → (ps.lookup k).isSome = true
  | [], h => by simp at h
  | (a, b) :: rest, h => by
    by_cases hk : k = a
    · subst hk
      simp [List.lookup]
    · have hmem : k ∈ rest.map Prod.fst := by
        simp only [List.map_cons, List.mem_cons] at h
        exact h.resolve_left hk
      have hbeq : (k == a) = false := beq_eq_false_iff_ne.mpr hk
      simp only [List.lookup, hbeq]
      exact lookup_isSome_of_mem hmem

theorem lookup_eq_of_perm {ps1 ps2 : List (String × String)}
    (hp : ps1.Perm ps2) (hn : (ps1.map Prod.fst).Nodup) (k : String) :
    ps1.lookup k = ps2.lookup k := by
  induction hp with
  | nil => rfl
  | cons x h ih =>
    obtain ⟨a, b⟩ := x
    by_cases hk : k = a
    · subst hk
      simp [List.lookup]
    · have hbeq : (k == a) = false := beq_eq_false_iff_ne.mpr hk
      simp only [List.lookup, hbeq]
      simp only [List.map_cons, List.nodup_cons] at hn
      exact ih hn.2
  | swap x y l =>
    obtain ⟨a, b⟩ := x
    obtain ⟨c, d⟩ := y
    have hca : c ≠ a := by
      simp only [List.map_cons, List.nodup_cons, List.mem_cons, not_or] at hn
      exact hn.1.1
    by_cases hkc : k = c
    · subst hkc
      have h1 : (k == a) = false := beq_eq_false_iff_ne.mpr hca
      simp [List.lookup, h1]
    · by_cases hka : k = a
      · subst hka
        have h1 : (k == c) = false := beq_eq_false_iff_ne.mpr (fun h => hca h.symm)
        simp [List.lookup, h1]
      · have h1 : (k == c) = false := beq_eq_false_iff_ne.mpr hkc
        have h2 : (k == a) = false := beq_eq_false_iff_ne.mpr hka
        simp [List.lookup, h1, h2]
  | trans h1 h2 ih1 ih2 =>
    have hn2 := (h1.map Prod.fst).nodup hn
    exact (ih1 hn).trans (ih2 hn2)

theorem foldAmp_acc (g : String → String) : ∀ (l : List String) (acc : String),
    l.foldl (fun a k => a ++ (g k ++ "&")) acc = acc ++ concatAmp g l
  | [], acc => by simp [concatAmp]
  | k :: rest, acc => by
    rw [List.foldl_cons, foldAmp_acc g rest (acc ++ (g k ++ "&"))]
    rw [concatAmp, String.append_assoc]

theorem concatAmp_data_ne_nil (g : String → String) :
    ∀ l : List String, l ≠ [] → (concatAmp g l).data ≠ []
  | [], h => absurd rfl h
  | k :: rest, _ => by
    rw [concatAmp, String.data_append, String.data_append]
    simp

theorem dropLast_concatAmp (g : String → String) :
    ∀ l : List String, String.mk (concatAmp g l).data.dropLast = joinAmp (l.map g)
  | [] => rfl
  | [k] => by
    rw [concatAmp, concatAmp, String.data_append]
    apply String.ext
    simp [joinAmp]
  | k :: k2 :: rest => by
    rw [concatAmp, String.data_append,
      List.dropLast_append_of_ne_nil _ (concatAmp_data_ne_nil g (k2 :: rest) (by simp))]
    have ih := dropLast_concatAmp g (k2 :: rest)
    apply String.ext
    simp only [List.map_cons, joinAmp, String.data_append]
    have ihd : (concatAmp g (k2 :: rest)).data.dropLast = (joinAmp ((k2 :: rest).map g)).data := by
      rw [← ih]
    rw [ihd]
    simp [String.data_append, List.append_assoc]

theorem gCode_eq_specQueryPair (ps : List (String × String)) (k : String)
    (h : k ∈ ps.map Prod.fst) :
    k ++ "=" ++ jsUndefToText (ps.lookup k) = specQueryPair ps k := by
  have hs := lookup_isSome_of_mem h
  unfold specQueryPair jsUndefToText
  cases hl : ps.lookup k with
  | none => rw [hl] at hs; simp at hs
  | some v => rfl

theorem handleQuery_params (s : FactoryState) (ps : List (String × String)) :
    handleQuery { id := none, params := some ps } s =
      { s with queryParameters := some (specBuildQueryStringUtf16 ps) } := by
  unfold handleQuery
  simp only
  congr 1
  rw [foldAmp_acc (fun k => k ++ "=" ++ jsUndefToText (ps.lookup k))]
  have hnil : ("" : String) ++ concatAmp (fun k => k ++ "=" ++ jsUndefToText (ps.lookup k))
      ((ps.map Prod.fst).insertionSort jsLe) = concatAmp (fun k => k ++ "=" ++ jsUndefToText (ps.lookup k))
      ((ps.map Prod.fst).insertionSort jsLe) := rfl
  rw [hnil, dropLast_concatAmp]
  unfold specBuildQueryStringUtf16
  apply congrArg some
  apply congrArg joinAmp
  apply List.map_congr_left
  intro k hk
  exact gCode_eq_specQueryPair ps k ((List.perm_insertionSort jsLe (ps.map Prod.fst)).mem_iff.mp hk)

theorem specBuildQuery_perm {ps1 ps2 : List (String × String)}
    (hp : ps1.Perm ps2) (hn : (ps1.map Prod.fst).Nodup) :
    specBuildQueryStringUtf16 ps1 = specBuildQueryStringUtf16 ps2 := by
  unfold specBuildQueryStringUtf16
  have hkeys : (ps1.map Prod.fst).insertionSort jsLe = (ps2.map Prod.fst).insertionSort jsLe :=
    @List.eq_of_perm_of_sorted String jsLe _ _ _
      (((List.perm_insertionSort jsLe _).trans (hp.map Prod.fst)).trans
        (List.perm_insertionSort jsLe _).symm)
      (List.sorted_insertionSort jsLe _) (List.sorted_insertionSort jsLe _)
  rw [hkeys]
  apply congrArg joinAmp
  apply List.map_congr_left
  intro k _
  unfold specQueryPair
  rw [lookup_eq_of_perm hp hn k]

theorem stringToSign_spec (C : Crypto) (s : FactoryState) (dates : Dates) :
    stringToSign C s dates =
      specStringToSign dates.longdate dates.shortdate (hashHex C (canonicalString C s dates)) := by
  apply String.ext
  simp only [stringToSign, specStringToSign, joinSep, String.data_append, List.append_assoc]
  rfl

theorem authHeader_spec (C : Crypto) (s : FactoryState) (dates : Dates) :
    authHeader C s dates =
      specAuthHeader s.accessKey dates.shortdate (getSignature C s dates) := by
  apply String.ext
  simp only [authHeader, specAuthHeader, joinSep, String.data_append, List.append_assoc]
  rfl

theorem canonicalString_spec (C : Crypto) (s : FactoryState) (dates : Dates) (p q : String)
    (hu : s.url = some p) (hq : s.queryParameters = some q) :
    canonicalString C s dates =
      specCanonicalString (jsOrDefault s.method "GET") p q dates.usbldate s.host (hashHex C "") := by
  apply String.ext
  simp only [canonicalString, specCanonicalString, joinSep, canonicalHeaderDate,
    canonicalHeaderHost, jsUndefToEmpty, hu, hq, Option.getD_some,
    String.data_append, List.append_assoc]

theorem foldl_configure_preserves : ∀ (os : List UOptions) (u : UsabillaObj),
    (os.foldl configure u).factory = u.factory ∧ (os.foldl configure u).websites = u.websites
  | [], u => ⟨rfl, rfl⟩
  | o :: rest, u => by
    rw [List.foldl_cons]
    have ih := foldl_configure_preserves rest (configure u o)
    exact ⟨ih.1.trans rfl, ih.2.trans rfl⟩

/-- C3: for every interpretation of the crypto primitives, every factory
state and every dates value, the emitted signature equals the reference
derivation: kDate from USBL1-prefixed secret and shortdate, kSigning
from kDate and the scope suffix, final HMAC over the string-to-sign
built from the algorithm tag, longdate, credential scope and the
lowercase hex SHA-256 of the canonical string. -/
theorem claim3_signature_reference_derivation (C : Crypto) (s : FactoryState) (dates : Dates) :
    getSignature C s dates =
      specSignature C s.secretKey dates.shortdate dates.longdate (canonicalString C s dates) := by
  simp only [getSignature, specSignature, hmacRaw, hmacHex, hashHex]
  rw [stringToSign_spec]
  rfl

/-- C4: the canonical string is exactly the newline-join of method
(defaulting to GET when unset), resolved path, query string, the date
line, the host line with its own trailing newline, the literal
signed-headers list, and the lowercase hex SHA-256 of the empty string. -/
theorem claim4_canonical_string_layout (C : Crypto) (ak sk host p q : String)
    (m : Option String) (d : Option Dates) (h : Option HeadersObj) (dates : Dates) :
    canonicalString C ⟨ak, sk, host, some p, m, some q, d, h⟩ dates =
      specCanonicalString (jsOrDefault m "GET") p q dates.usbldate host (hashHex C "") ∧
    canonicalString C ⟨ak, sk, host, some p, none, some q, d, h⟩ dates =
      specCanonicalString "GET" p q dates.usbldate host (hashHex C "") :=
  ⟨canonicalString_spec C _ dates p q rfl rfl,
   canonicalString_spec C _ dates p q rfl rfl⟩

/-- C8: sign() returns headers made of the usbldate and the exact
Authorization template around accessKey, shortdate and the signature,
and the url carries the query-string suffix exactly when a non-empty
query string is present. -/
theorem claim8_sign_assembly (C : Crypto) (env : Env) (t1 t2 t3 : Int)
    (ak sk host p : String) (m qp : Option String) (d : Option Dates) (h : Option HeadersObj) :
    (sign C env t1 t2 t3 ⟨ak, sk, host, some p, m, qp, d, h⟩).1.headers.date =
      (getDateTime env t1 t2 t3).usbldate ∧
    (sign C env t1 t2 t3 ⟨ak, sk, host, some p, m, qp, d, h⟩).1.headers.Authorization =
      specAuthHeader ak (getDateTime env t1 t2 t3).shortdate
        (getSignature C ⟨ak, sk, host, some p, m, qp, d, h⟩ (getDateTime env t1 t2 t3)) ∧
    (sign C env t1 t2 t3 ⟨ak, sk, host, some p, m, qp, d, h⟩).1.url =
      (match qp with
        | none => some p
        | some qs => if qs = "" then some p else some (p ++ "?" ++ qs)) := by
  refine ⟨rfl, authHeader_spec C _ _, ?_⟩
  cases qp with
  | none => rfl
  | some qs =>
    by_cases hq : qs = ""
    · simp [sign, hq]
    · simp [sign, hq]
      rfl

/-- C10: configure() only rewrites the config object; the factory (its
host and unset method included) and every resource of the websites tree
keep their construction-time values, so the signing host stays
data.usabilla.com and every base url stays the https constant. -/
theorem claim10_configure_inert (ak sk : String) (os : List UOptions) :
    (os.foldl configure (mkUsabilla ak sk)).factory = (mkUsabilla ak sk).factory ∧
    (os.foldl configure (mkUsabilla ak sk)).websites = (mkUsabilla ak sk).websites ∧
    (os.foldl configure (mkUsabilla ak sk)).factory.host = "data.usabilla.com" ∧
    (os.foldl configure (mkUsabilla ak sk)).factory.method = none ∧
    jsOrDefault (os.foldl configure (mkUsabilla ak sk)).factory.method "GET" = "GET" ∧
    getBaseUrl (os.foldl configure (mkUsabilla ak sk)).websites.buttons = "https://data.usabilla.com" ∧
    getBaseUrl (os.foldl configure (mkUsabilla ak sk)).websites.buttonsFeedback = "https://data.usabilla.com" ∧
    getBaseUrl (os.foldl configure (mkUsabilla ak sk)).websites.campaigns = "https://data.usabilla.com" ∧
    getBaseUrl (os.foldl configure (mkUsabilla ak sk)).websites.campaignsResults = "https://data.usabilla.com" ∧
    getBaseUrl (os.foldl configure (mkUsabilla ak sk)).websites.campaignsStats = "https://data.usabilla.com" := by
  have hp := foldl_configure_preserves os (mkUsabilla ak sk)
  refine ⟨hp.1, hp.2, ?_, ?_, ?_, ?_, ?_, ?_, ?_, ?_⟩
  · rw [hp.1]; rfl
  · rw [hp.1]; rfl
  · rw [hp.1]; rfl
  · rw [hp.2]; rfl
  · rw [hp.2]; rfl
  · rw [hp.2]; rfl
  · rw [hp.2]; rfl
  · rw [hp.2]; rfl

/-- C1: evaluation of getDateTime at clock reads that straddle the
2016/2017 midnight boundary: the first moment() call (usbldate) sees
Dec 31 while the second and third (shortdate, longdate) see Jan 1, so
the three representations do not derive from one instant; formatting
any single read gives a different Dates value. -/
theorem claim1_three_separate_clock_reads :
    getDateTime utcEnv tDec31 tJan1 tJan1 =
      { usbldate := "Sat, 31 Dec 2016 23:59:59 GMT",
        shortdate := "20170101", longdate := "20170101T000000Z" } ∧
    getDateTime utcEnv tDec31 tDec31 tDec31 =
      { usbldate := "Sat, 31 Dec 2016 23:59:59 GMT",
        shortdate := "20161231", longdate := "20161231T235959Z" } ∧
    getDateTime utcEnv tJan1 tJan1 tJan1 =
      { usbldate := "Sun, 01 Jan 2017 00:00:00 GMT",
        shortdate := "20170101", longdate := "20170101T000000Z" } ∧
    getDateTime utcEnv tDec31 tJan1 tJan1 ≠ getDateTime utcEnv tDec31 tDec31 tDec31 ∧
    getDateTime utcEnv tDec31 tJan1 tJan1 ≠ getDateTime utcEnv tJan1 tJan1 tJan1 := by
  refine ⟨rfl, rfl, rfl, ?_, ?_⟩ <;> decide
/-- C2: evaluation of two successive Resource.get signing sequences on
the shared factory: the first call stores the query string limit=5 in
this.queryParameters, and a second call with no params reuses it, so
its signed url differs from the one a fresh factory produces for the
identical call; earlier calls leak into later ones. -/
theorem claim2_stale_query_string_reused :
    (resourceGetSign zeroCrypto utcEnv tJan2 tJan2 tJan2 buttonUrl { params := none }
        (resourceGetSign zeroCrypto utcEnv tJan2 tJan2 tJan2 buttonUrl
          { params := some [("limit", "5")] } baseFactory).2).1.url =
      some "/live/websites/button?limit=5" ∧
    (resourceGetSign zeroCrypto utcEnv tJan2 tJan2 tJan2 buttonUrl { params := none }
        baseFactory).1.url = some "/live/websites/button" ∧
    (resourceGetSign zeroCrypto utcEnv tJan2 tJan2 tJan2 buttonUrl { params := none }
        (resourceGetSign zeroCrypto utcEnv tJan2 tJan2 tJan2 buttonUrl
          { params := some [("limit", "5")] } baseFactory).2).1 ≠
      (resourceGetSign zeroCrypto utcEnv tJan2 tJan2 tJan2 buttonUrl { params := none }
        baseFactory).1 ∧
    canonicalString zeroCrypto
        (handleQuery { params := none }
          (setUrl (resourceGetSign zeroCrypto utcEnv tJan2 tJan2 tJan2 buttonUrl
            { params := some [("limit", "5")] } baseFactory).2 buttonUrl))
        (getDateTime utcEnv tJan2 tJan2 tJan2) ≠
      canonicalString zeroCrypto (handleQuery { params := none } (setUrl baseFactory buttonUrl))
        (getDateTime utcEnv tJan2 tJan2 tJan2) := by
  refine ⟨rfl, rfl, ?_, ?_⟩ <;> decide

/-- C5: evaluation of the date formatting and the strings derived from
it at one fixed instant under two environments: moment() renders local
wall-clock time, so a one-hour UTC offset changes shortdate (and with
it the canonical string, the string-to-sign and the Authorization
header), and the French locale changes usbldate; the outputs are not
independent of timezone and locale. -/
theorem claim5_timezone_locale_dependence :
    (getDateTime utcEnv tDec31 tDec31 tDec31).shortdate ≠
      (getDateTime plus60Env tDec31 tDec31 tDec31).shortdate ∧
    canonicalString zeroCrypto (setUrl baseFactory buttonUrl) (getDateTime utcEnv tDec31 tDec31 tDec31) ≠
      canonicalString zeroCrypto (setUrl baseFactory buttonUrl) (getDateTime plus60Env tDec31 tDec31 tDec31) ∧
    stringToSign zeroCrypto (setUrl baseFactory buttonUrl) (getDateTime utcEnv tDec31 tDec31 tDec31) ≠
      stringToSign zeroCrypto (setUrl baseFactory buttonUrl) (getDateTime plus60Env tDec31 tDec31 tDec31) ∧
    authHeader zeroCrypto baseFactory (getDateTime utcEnv tDec31 tDec31 tDec31) ≠
      authHeader zeroCrypto baseFactory (getDateTime plus60Env tDec31 tDec31 tDec31) ∧
    (getDateTime utcEnv tDec31 tDec31 tDec31).usbldate ≠
      (getDateTime { utcOffsetMinutes := 0, locale := frLocale } tDec31 tDec31 tDec31).usbldate := by
  refine ⟨?_, ?_, ?_, ?_, ?_⟩ <;> decide
/-- C6 counterexample: with one key above the Basic Multilingual Plane
and one at its top, the default JavaScript sort (UTF-16 code units)
puts the astral key first while byte-wise UTF-8 order puts it last, so
the built query string is not in byte-wise ascending key order. -/
theorem claim6_bytewise_order_counterexample :
    (handleQuery { id := none, params := some [(astralKey, "1"), (bmpMaxKey, "2")] }
        baseFactory).queryParameters =
      some (astralKey ++ "=1&" ++ bmpMaxKey ++ "=2") ∧
    specBuildQueryStringBytes [(astralKey, "1"), (bmpMaxKey, "2")] =
      bmpMaxKey ++ "=2&" ++ astralKey ++ "=1" ∧
    (handleQuery { id := none, params := some [(astralKey, "1"), (bmpMaxKey, "2")] }
        baseFactory).queryParameters ≠
      some (specBuildQueryStringBytes [(astralKey, "1"), (bmpMaxKey, "2")]) := by
  refine ⟨?_, ?_, ?_⟩ <;> decide

/-- C6 amended: the built query string lists keys in ascending UTF-16
code-unit order (the default JavaScript sort; identical to byte-wise
order on keys without astral characters) as key=value pairs joined by
an ampersand with no trailing separator and values verbatim; the input
key order has no effect for distinct keys; an empty params object
yields the empty query string, an absent one leaves the state
untouched, and in both cases sign() appends no question-mark suffix. -/
theorem claim6_query_string_amended :
    (∀ (s : FactoryState) (ps : List (String × String)),
      handleQuery { id := none, params := some ps } s =
        { s with queryParameters := some (specBuildQueryStringUtf16 ps) }) ∧
    (∀ (s : FactoryState) (ps1 ps2 : List (String × String)),
      ps1.Perm ps2 → (ps1.map Prod.fst).Nodup →
      handleQuery { id := none, params := some ps1 } s =
        handleQuery { id := none, params := some ps2 } s) ∧
    (∀ s : FactoryState,
      (handleQuery { id := none, params := some ([] : List (String × String)) } s).queryParameters =
        some "") ∧
    (∀ s : FactoryState, handleQuery { id := none, params := none } s = s) ∧
    (∀ (C : Crypto) (env : Env) (t1 t2 t3 : Int) (ak sk host p : String)
        (m : Option String) (d : Option Dates) (h : Option HeadersObj),
      (sign C env t1 t2 t3 ⟨ak, sk, host, some p, m, some "", d, h⟩).1.url = some p) ∧
    (∀ (C : Crypto) (env : Env) (t1 t2 t3 : Int) (ak sk host p : String)
        (m : Option String) (d : Option Dates) (h : Option HeadersObj),
      (sign C env t1 t2 t3 ⟨ak, sk, host, some p, m, none, d, h⟩).1.url = some p) := by
  refine ⟨handleQuery_params, ?_, ?_, ?_, ?_, ?_⟩
  · intro s ps1 ps2 hp hn
    rw [handleQuery_params, handleQuery_params, specBuildQuery_perm hp hn]
  · intro s
    rfl
  · intro s
    rfl
  · intro C env t1 t2 t3 ak sk host p m d h
    rfl
  · intro C env t1 t2 t3 ak sk host p m d h
    rfl

/-- C6 witness: the amended statement applied to the concrete mapping
with keys b and a supplied in reversed order. -/
theorem claim6_query_string_amended_witness :
    (handleQuery { id := none, params := some [("b", "2"), ("a", "1")] } baseFactory).queryParameters =
      some "a=1&b=2" ∧
    handleQuery { id := none, params := some [("b", "2"), ("a", "1")] } baseFactory =
      handleQuery { id := none, params := some [("a", "1"), ("b", "2")] } baseFactory :=
  ⟨(congrArg FactoryState.queryParameters
      (claim6_query_string_amended.1 baseFactory [("b", "2"), ("a", "1")])).trans (by decide),
   claim6_query_string_amended.2.1 baseFactory _ _
     (List.Perm.swap ("a", "1") ("b", "2") []) (by decide)⟩

/-- C7 counterexample: an id containing the replacement pattern
dollar-ampersand is not substituted verbatim: String.replace expands it
to the matched text, so the resolved path keeps its placeholder instead
of containing the id. -/
theorem claim7_dollar_pattern_counterexample :
    (handleQuery { id := some "$&", params := none } (setUrl baseFactory "/x/:id/y")).url =
      some "/x/:id/y" ∧
    specReplaceVerbatim "/x/:id/y" ":id" "$&" = "/x/$&/y" ∧
    (handleQuery { id := some "$&", params := none } (setUrl baseFactory "/x/:id/y")).url ≠
      some (specReplaceVerbatim "/x/:id/y" ":id" "$&") := by
  refine ⟨?_, ?_, ?_⟩ <;> decide

/-- C7 amended: an absent or empty id leaves the url untouched; a
wildcard id substitutes the percent-encoding into the first placeholder
occurrence; any other non-empty id free of dollar replacement patterns
is substituted verbatim (ids containing a dollar are transformed by the
JavaScript replacement-pattern rules instead). -/
theorem claim7_path_resolution_amended :
    (∀ (s : FactoryState) (ps : Option (List (String × String))),
      (handleQuery { id := none, params := ps } s).url = s.url) ∧
    (∀ (s : FactoryState) (ps : Option (List (String × String))),
      (handleQuery { id := some "", params := ps } s).url = s.url) ∧
    (∀ (ak sk host u : String) (m qp : Option String) (d : Option Dates)
        (h : Option HeadersObj) (ps : Option (List (String × String))),
      (handleQuery { id := some "*", params := ps } ⟨ak, sk, host, some u, m, qp, d, h⟩).url =
        some (specReplaceVerbatim u ":id" "%2A")) ∧
    (∀ (ak sk host u : String) (m qp : Option String) (d : Option Dates)
        (h : Option HeadersObj) (ps : Option (List (String × String))) (i : String),
      i ≠ "" → i ≠ "*" → noDollar i →
      (handleQuery { id := some i, params := ps } ⟨ak, sk, host, some u, m, qp, d, h⟩).url =
        some (specReplaceVerbatim u ":id" i)) := by
  refine ⟨?_, ?_, ?_, ?_⟩
  · intro s ps
    cases ps <;> rfl
  · intro s ps
    cases ps <;> simp [handleQuery]
  · intro ak sk host u m qp d h ps
    have hrw := jsReplace_noDollar u ":id" "%2A" (by decide)
    cases ps <;> simp [handleQuery, hrw]
  · intro ak sk host u m qp d h ps i hi1 hi2 hi3
    have hrw := jsReplace_noDollar u ":id" i hi3
    cases ps <;> simp [handleQuery, hi1, hi2, hrw]

/-- C7 witness: the amended statement applied to a concrete template
with the ordinary id 42 and with the wildcard id. -/
theorem claim7_path_resolution_amended_witness :
    (handleQuery { id := some "42", params := none } (setUrl baseFactory "/x/:id/y")).url =
      some "/x/42/y" ∧
    (handleQuery { id := some "*", params := none } (setUrl baseFactory "/x/:id/y")).url =
      some "/x/%2A/y" :=
  ⟨(claim7_path_resolution_amended.2.2.2 "AK" "SK" "data.usabilla.com" "/x/:id/y"
      none none none none none "42" (by decide) (by decide) (by decide)).trans (by decide),
   (claim7_path_resolution_amended.2.2.1 "AK" "SK" "data.usabilla.com" "/x/:id/y"
      none none none none none).trans (by decide)⟩

/-- C9 counterexample: when the HMAC primitive throws, signE hands the
error back synchronously, but the factory state after the failed call
differs from the state before it: this.dates and this.headers.date have
already been rewritten. -/
theorem claim9_state_mutation_counterexample :
    (signE failCrypto utcEnv tJan2 tJan2 tJan2 (setUrl baseFactory buttonUrl)).1 =
      Except.error "digest failure" ∧
    (signE failCrypto utcEnv tJan2 tJan2 tJan2 (setUrl baseFactory buttonUrl)).2 ≠
      setUrl baseFactory buttonUrl ∧
    (signE failCrypto utcEnv tJan2 tJan2 tJan2 (setUrl baseFactory buttonUrl)).2.dates ≠
      (setUrl baseFactory buttonUrl).dates := by
  refine ⟨rfl, ?_, ?_⟩ <;> decide

/-- C9 amended: a failing primitive aborts the signing call
synchronously with the error as the only outcome (no partially-signed
response value exists), and the credentials, url, method and
queryParameters are untouched; however the state is not fully restored:
this.dates and this.headers.date hold the values written before the
failure, with Authorization unset. -/
theorem claim9_error_propagation_amended (F : FCrypto) (env : Env) (t1 t2 t3 : Int)
    (s : FactoryState) (e : String)
    (hf : (signE F env t1 t2 t3 s).1 = Except.error e) :
    (signE F env t1 t2 t3 s).2 =
      { s with dates := some (getDateTime env t1 t2 t3),
               headers := some { date := some (getDateTime env t1 t2 t3).usbldate,
                                 Authorization := none } } := by
  simp only [signE] at hf ⊢
  cases hA : authHeaderE F s (getDateTime env t1 t2 t3) with
  | error err => rfl
  | ok auth =>
    rw [hA] at hf
    simp at hf

/-- C9 witness: the amended statement applied to the always-failing
primitives on a concrete state. -/
theorem claim9_error_propagation_amended_witness :
    (signE failCrypto utcEnv tJan2 tJan2 tJan2 (setUrl baseFactory buttonUrl)).2 =
      { setUrl baseFactory buttonUrl with
        dates := some (getDateTime utcEnv tJan2 tJan2 tJan2),
        headers := some { date := some (getDateTime utcEnv tJan2 tJan2 tJan2).usbldate,
                          Authorization := none } } :=
  claim9_error_propagation_amended failCrypto utcEnv tJan2 tJan2 tJan2
    (setUrl baseFactory buttonUrl) "digest failure" rfl
end ApiJsNode
